import Mathlib

/-! Shallow embedding of the rule parsing, rule matching and product
classification logic of `app_rules.py` (the Product Classifier tool),
together with proofs about it.  Strings are modelled as `List Char`;
Python string primitives (`lower`, `strip`, `split`, `replace`, `in`)
are modelled by executable functions below, restricted to ASCII where
case is concerned. -/

namespace Classifier

/-- A spreadsheet cell value as seen by pandas: `na` models a missing
value (`NaN`, for which `pd.isna` is true); `str` models a text cell;
`num` models any present non-text value (for example a numeric cell),
for which `pd.isna` is false and which has no `.lower()` method. -/
inductive Cell where
  | na : Cell
  | num : Int → Cell
  | str : List Char → Cell
  deriving DecidableEq

/-- Python `str.lower` on one character, ASCII model: code points 65-90
(`A`-`Z`) map to 97-122 (`a`-`z`); every other character is unchanged. -/
def lowerChar (c : Char) : Char :=
  if 65 ≤ c.toNat ∧ c.toNat ≤ 90 then Char.ofNat (c.toNat + 32) else c

/-- Python `str.lower` over a whole string. -/
def pyLower (l : List Char) : List Char := l.map lowerChar

/-- Whitespace as stripped by Python `str.strip` (ASCII model): space,
tab, newline, carriage return. -/
def isWS (c : Char) : Bool :=
  c.toNat = 32 || c.toNat = 9 || c.toNat = 10 || c.toNat = 13

/-- Python `str.strip`: drop whitespace characters from both ends. -/
def stripWS (l : List Char) : List Char :=
  ((l.dropWhile isWS).reverse.dropWhile isWS).reverse

/-- Does the second list start with the first one? -/
def startsWith : List Char → List Char → Bool
  | [], _ => true
  | _ :: _, [] => false
  | a :: pat, b :: l => a == b && startsWith pat l

/-- Substring containment: models the Python expression `pat in s` on
strings, true iff `pat` occurs contiguously inside `s`. -/
def pyIn (pat : List Char) : List Char → Bool
  | [] => startsWith pat []
  | c :: cs => startsWith pat (c :: cs) || pyIn pat cs

/-- Python `str.replace(pat, rep)` for a nonempty `pat` (the source only
replaces the five-character pattern " and "): non-overlapping occurrences
are replaced left to right.  The extra `Nat` is fuel making the recursion
structural; each step consumes at least one character, so fuel equal to
the length of the string (as supplied by `pyReplace`) always suffices. -/
def pyReplaceGo (pat rep : List Char) : Nat → List Char → List Char
  | _, [] => []
  | 0, l => l
  | fuel + 1, c :: cs =>
    if startsWith pat (c :: cs) then
      rep ++ pyReplaceGo pat rep fuel (cs.drop (pat.length - 1))
    else
      c :: pyReplaceGo pat rep fuel cs

/-- Python `str.replace(pat, rep)`. -/
def pyReplace (pat rep l : List Char) : List Char := pyReplaceGo pat rep l.length l

/-- Python `str.split(sep)` for a nonempty separator (the source splits on
"," and on " and "): every occurrence of the separator ends a field, empty
fields are kept.  Fuel-based for the same reason as `pyReplaceGo`; `acc`
holds the characters of the current field in reverse. -/
def pySplitGo (sep : List Char) : Nat → List Char → List Char → List (List Char)
  | _, [], acc => [acc.reverse]
  | 0, l, acc => [acc.reverse ++ l]
  | fuel + 1, c :: cs, acc =>
    if startsWith sep (c :: cs) then
      acc.reverse :: pySplitGo sep fuel (cs.drop (sep.length - 1)) []
    else
      pySplitGo sep fuel cs (c :: acc)

/-- Python `str.split(sep)`. -/
def pySplit (sep l : List Char) : List (List Char) := pySplitGo sep l.length l []

/-- The string " and " that the source uses as replacement pattern and
AND-separator. -/
def andSep : List Char := " and ".toList

/-- `clean_and_split` from `app_rules.py`: on a missing value (`pd.isna`)
or a non-string value it returns `[]`; on a string it replaces " and "
with ",", splits on ",", and keeps `t.strip().lower()` for every fragment
`t` whose strip is nonempty. -/
def clean_and_split (text : Cell) : List (List Char) :=
  match text with
  | .na => []
  | .num _ => []
  | .str s =>
    (pySplit [','] (pyReplace andSep [','] s)).filterMap fun t =>
      if stripWS t = [] then none else some (pyLower (stripWS t))

/-- `parse_include` from `app_rules.py`: a missing value gives the empty
include list; a present non-text value is NOT caught by the `pd.isna`
test and has no `.lower()` method, so the call raises `AttributeError`
(modelled as `Except.error`); a string is lowercased, then split on
" and " into AND-groups when it contains " and ", each group tokenized
by `clean_and_split`, otherwise the whole string is a single group. -/
def parse_include (include_text : Cell) : Except String (List (List (List Char))) :=
  match include_text with
  | .na => .ok []
  | .num _ => .error "AttributeError: non-text value has no attribute lower"
  | .str s =>
    let t := pyLower s
    if pyIn andSep t then
      .ok ((pySplit andSep t).map fun part => clean_and_split (.str part))
    else
      .ok [clean_and_split (.str t)]

/-- The body of `matches_rule` from `app_rules.py` (without the
`@lru_cache` decorator, which is modelled separately): every AND-group of
`incl` must contribute at least one token contained in the title as a
substring, and no token of `excl` may be contained in the title. -/
def matches_rule (title : List Char) (incl : List (List (List Char)))
    (excl : List (List Char)) : Bool :=
  (incl.all fun and_block => and_block.any fun word => pyIn word title) &&
  !(excl.any fun word => pyIn word title)

/-- One parsed rule as produced by `preprocess_rules`: the tuple
`(include, exclude, label)`. -/
abbrev ParsedRule := List (List (List Char)) × List (List Char) × List Char

/-- `preprocess_rules` from `app_rules.py`: each rule row carries its
`Include` cell, its `Exclude` cell and its `Rule` label (the label is
used as text by the classifier and is modelled as a string).  An
`AttributeError` raised by `parse_include` aborts the whole run. -/
def preprocess_rules (rows : List (Cell × Cell × List Char)) :
    Except String (List ParsedRule) :=
  rows.mapM fun r => do
    let incl ← parse_include r.1
    Except.ok (incl, clean_and_split r.2.1, r.2.2)

/-- A Python runtime value, as far as hashability is concerned: strings
and lists (`preprocess_rules` passes the include tuple as a list of
lists of strings and the exclude tuple as a list of strings). -/
inductive PyObj where
  | pyStr : List Char → PyObj
  | pyList : List PyObj → PyObj

/-- Python hashability: strings are hashable, lists never are (hashing a
list raises `TypeError: unhashable type`). -/
def pyHashable : PyObj → Bool
  | .pyStr _ => true
  | .pyList _ => false

/-- The runtime representation of the `include` argument built by
`preprocess_rules`: a Python list of lists of strings. -/
def includeObj (incl : List (List (List Char))) : PyObj :=
  .pyList (incl.map fun g => .pyList (g.map .pyStr))

/-- The runtime representation of the `exclude` argument built by
`preprocess_rules`: a Python list of strings. -/
def excludeObj (excl : List (List Char)) : PyObj :=
  .pyList (excl.map .pyStr)

/-- `matches_rule` as actually defined in `app_rules.py`, that is with
the `@lru_cache(maxsize=None)` decorator: `functools.lru_cache` first
hashes the argument tuple to look it up in the cache, so if any argument
is unhashable the call raises `TypeError` before the body runs. -/
def matchesRuleCached (title : List Char) (incl : List (List (List Char)))
    (excl : List (List Char)) : Except String Bool :=
  if pyHashable (.pyStr title) && pyHashable (includeObj incl) &&
      pyHashable (excludeObj excl) then
    .ok (matches_rule title incl excl)
  else
    .error "TypeError: unhashable type: \x27list\x27"

/-- The title preparation in `classify_products`:
`product_df['TITLE'].str.lower().fillna('')` applied to one cell.  The
`.str` accessor turns non-string values into `NaN`, and `fillna('')`
turns `NaN` into the empty string. -/
def lowerTitle : Cell → List Char
  | .na => []
  | .num _ => []
  | .str s => pyLower s

/-- The inner loop of `classify_products` for one (already lowercased)
title: collect the labels of the rules accepted by the cached
`matches_rule`, in rule-table order; a raised exception propagates. -/
def matched_labels (title : List Char) : List ParsedRule → Except String (List (List Char))
  | [] => .ok []
  | r :: rs => do
    let b ← matchesRuleCached title r.1 r.2.1
    let rest ← matched_labels title rs
    Except.ok (if b then r.2.2 :: rest else rest)

/-- `classify_products` from `app_rules.py`: lowercase every title (with
missing and non-text titles becoming the empty string), and for each
title join the labels of the matching rules with ", ". -/
def classify_products (titles : List Cell) (parsed_rules : List ParsedRule) :
    Except String (List (List Char)) :=
  (titles.map lowerTitle).mapM fun t =>
    (matched_labels t parsed_rules).map fun ms => List.intercalate (", ".toList) ms

/-- The inner loop of `classify_products` with the `@lru_cache` decorator
removed from `matches_rule` (the cache-free variant the specification
says may be used freely). -/
def matched_labels_pure (title : List Char) : List ParsedRule → List (List Char)
  | [] => []
  | r :: rs =>
    if matches_rule title r.1 r.2.1 then r.2.2 :: matched_labels_pure title rs
    else matched_labels_pure title rs

/-- `classify_products` with the `@lru_cache` decorator removed from
`matches_rule`. -/
def classify_products_pure (titles : List Cell) (parsed_rules : List ParsedRule) :
    List (List Char) :=
  (titles.map lowerTitle).map fun t =>
    List.intercalate (", ".toList) (matched_labels_pure t parsed_rules)

/-- The post-upload control flow of `app_rules.py`: the products table
must have a `TITLE` column and the rules table must have `Rule`,
`Include` and `Exclude` columns; a missing column stops the run with a
descriptive message before any rule is parsed and before any product is
classified.  Otherwise the rules are preprocessed and the products
classified. -/
def run_app (productCols rulesCols : List String) (titles : List Cell)
    (ruleRows : List (Cell × Cell × List Char)) : Except String (List (List Char)) :=
  if "TITLE" ∉ productCols then
    .error "Product file must contain a \x27TITLE\x27 column."
  else if "Rule" ∉ rulesCols ∨ "Include" ∉ rulesCols ∨ "Exclude" ∉ rulesCols then
    .error "Rules file must contain \x27Rule\x27, \x27Include\x27, and \x27Exclude\x27 columns."
  else do
    let pr ← preprocess_rules ruleRows
    classify_products titles pr

/-! Supporting lemmas about the character-level models. -/

/-- Packing a valid code point into a character and unpacking it is the
identity. -/
theorem toNat_ofNat_valid {n : Nat} (h : n.isValidChar) : (Char.ofNat n).toNat = n := by
  unfold Char.ofNat
  rw [dif_pos h]
  rfl

/-- The code point of a lowercased character. -/
theorem toNat_lowerChar (c : Char) :
    (lowerChar c).toNat = if 65 ≤ c.toNat ∧ c.toNat ≤ 90 then c.toNat + 32 else c.toNat := by
  unfold lowerChar
  split
  · next h => exact toNat_ofNat_valid (Or.inl (by omega))
  · rfl

/-- A character that is not an ASCII capital letter is fixed by
`lowerChar`. -/
theorem lowerChar_of_not_upper {c : Char} (h : ¬(65 ≤ c.toNat ∧ c.toNat ≤ 90)) :
    lowerChar c = c := by
  unfold lowerChar
  exact if_neg h

/-- Lowercasing a character twice is the same as lowercasing it once. -/
theorem lowerChar_idem (c : Char) : lowerChar (lowerChar c) = lowerChar c := by
  apply lowerChar_of_not_upper
  rw [toNat_lowerChar]
  by_cases h : 65 ≤ c.toNat ∧ c.toNat ≤ 90
  · rw [if_pos h]
    omega
  · rw [if_neg h]
    exact h

/-- Unfolding of the whitespace test. -/
theorem isWS_iff (c : Char) :
    isWS c = true ↔ (c.toNat = 32 ∨ c.toNat = 9 ∨ c.toNat = 10 ∨ c.toNat = 13) := by
  simp [isWS, or_assoc]

/-- Lowercasing does not change whether a character is whitespace. -/
theorem isWS_lowerChar (c : Char) : isWS (lowerChar c) = isWS c := by
  rw [Bool.eq_iff_iff, isWS_iff, isWS_iff, toNat_lowerChar]
  by_cases h : 65 ≤ c.toNat ∧ c.toNat ≤ 90
  · rw [if_pos h]
    constructor <;> (intro hc; omega)
  · rw [if_neg h]

/-- Lowercasing a string twice is the same as lowercasing it once. -/
theorem pyLower_idem (l : List Char) : pyLower (pyLower l) = pyLower l := by
  have h : lowerChar ∘ lowerChar = lowerChar := funext lowerChar_idem
  unfold pyLower
  rw [List.map_map, h]

/-- If the head of a list does not satisfy the predicate, `dropWhile`
leaves the list unchanged. -/
theorem dropWhile_eq_self_of_head {α : Type} (p : α → Bool) (l : List α)
    (h : ∀ c, l.head? = some c → p c = false) : l.dropWhile p = l := by
  cases l with
  | nil => rfl
  | cons a as =>
    refine List.dropWhile_cons_of_neg ?_
    simp [h a rfl]

/-- The head of the stripped string is not whitespace. -/
theorem stripWS_head (l : List Char) :
    ∀ c, (stripWS l).head? = some c → isWS c = false := by
  intro c hc
  unfold stripWS at hc
  rw [List.head?_reverse] at hc
  set u := (l.dropWhile isWS).reverse with hu
  have hsfx := List.dropWhile_suffix (l := u) isWS
  obtain ⟨w, hw⟩ := hsfx
  have hne : u.dropWhile isWS ≠ [] := by
    intro hnil
    rw [hnil] at hc
    exact Option.noConfusion hc
  have hlast : u.getLast? = some c := by
    rw [← hw, List.getLast?_append, hc]
    rfl
  rw [hu, List.getLast?_reverse] at hlast
  have h2 := List.head?_dropWhile_not isWS l
  rw [hlast] at h2
  exact h2

/-- The last character of the stripped string is not whitespace. -/
theorem stripWS_last (l : List Char) :
    ∀ c, (stripWS l).getLast? = some c → isWS c = false := by
  intro c hc
  unfold stripWS at hc
  rw [List.getLast?_reverse] at hc
  have h2 := List.head?_dropWhile_not isWS (l.dropWhile isWS).reverse
  rw [hc] at h2
  exact h2

/-- Stripping a string with no surrounding whitespace is the identity. -/
theorem stripWS_eq_self {l : List Char}
    (h1 : ∀ c, l.head? = some c → isWS c = false)
    (h2 : ∀ c, l.getLast? = some c → isWS c = false) : stripWS l = l := by
  unfold stripWS
  rw [dropWhile_eq_self_of_head _ _ h1]
  rw [dropWhile_eq_self_of_head]
  · exact l.reverse_reverse
  · intro c hc
    rw [List.head?_reverse] at hc
    exact h2 c hc

/-- Stripping is idempotent. -/
theorem stripWS_idem (l : List Char) : stripWS (stripWS l) = stripWS l :=
  stripWS_eq_self (stripWS_head l) (stripWS_last l)

/-- Stripping commutes with lowercasing. -/
theorem stripWS_pyLower (l : List Char) : stripWS (pyLower l) = pyLower (stripWS l) := by
  have hco : (isWS ∘ lowerChar) = isWS := funext isWS_lowerChar
  unfold stripWS pyLower
  rw [List.dropWhile_map, hco, ← List.map_reverse, List.dropWhile_map, hco, ← List.map_reverse]

/-- Validation of the substring model: `startsWith pat l` holds exactly
when `l` is `pat` followed by some tail. -/
theorem startsWith_iff (pat : List Char) :
    ∀ l : List Char, startsWith pat l = true ↔ ∃ t, l = pat ++ t := by
  induction pat with
  | nil =>
    intro l
    simp [startsWith]
  | cons a as ih =>
    intro l
    cases l with
    | nil => simp [startsWith]
    | cons b bs =>
      simp [startsWith, ih bs, beq_iff_eq, eq_comm (a := b) (b := a)]

/-- Validation of the substring model: `pyIn pat l` holds exactly when
`l` decomposes as some prefix, then `pat`, then some suffix, that is when
`pat` occurs contiguously inside `l`. -/
theorem pyIn_iff (pat : List Char) :
    ∀ l : List Char, pyIn pat l = true ↔ ∃ s t, l = s ++ pat ++ t := by
  intro l
  induction l with
  | nil =>
    simp only [pyIn, startsWith_iff]
    constructor
    · rintro ⟨t, ht⟩
      exact ⟨[], t, ht⟩
    · rintro ⟨s, t, hst⟩
      have hs : s = [] := by
        cases s with
        | nil => rfl
        | cons x xs => simp at hst
      subst hs
      exact ⟨t, hst⟩
  | cons c cs ih =>
    simp only [pyIn, Bool.or_eq_true, startsWith_iff, ih]
    constructor
    · rintro (⟨t, ht⟩ | ⟨s, t, hst⟩)
      · exact ⟨[], t, ht⟩
      · exact ⟨c :: s, t, by simp [hst]⟩
    · rintro ⟨s, t, hst⟩
      cases s with
      | nil =>
        left
        exact ⟨t, by simpa using hst⟩
      | cons x xs =>
        right
        simp only [List.cons_append, List.cons.injEq] at hst
        exact ⟨xs, t, hst.2⟩

/-- The cache-free classification loop collects, for each title, exactly
the labels of the matching rules in rule-table order. -/
theorem matched_labels_pure_eq (title : List Char) (rules : List ParsedRule) :
    matched_labels_pure title rules =
      (rules.filter fun r => matches_rule title r.1 r.2.1).map fun r => r.2.2 := by
  induction rules with
  | nil => rfl
  | cons r rs ih =>
    by_cases h : matches_rule title r.1 r.2.1 <;>
      simp [matched_labels_pure, List.filter_cons, h, ih]

/-- Evaluation of `matches_rule` on two singleton AND-groups and no
exclusions: a conjunction of two containment tests. -/
theorem matches_rule_two_singleton (t w1 w2 : List Char) :
    matches_rule t [[w1], [w2]] [] = (pyIn w1 t && pyIn w2 t) := by
  cases h1 : pyIn w1 t <;> cases h2 : pyIn w2 t <;> simp [matches_rule, h1, h2]

/-- Evaluation of `matches_rule` on one two-token AND-group and no
exclusions: a disjunction of two containment tests. -/
theorem matches_rule_one_pair (t w1 w2 : List Char) :
    matches_rule t [[w1, w2]] [] = (pyIn w1 t || pyIn w2 t) := by
  cases h1 : pyIn w1 t <;> cases h2 : pyIn w2 t <;> simp [matches_rule, h1, h2]

/-! Claims. -/

/-- C1 (code bug): the memoization of `matches_rule` is not semantically
transparent in the code as written.  `preprocess_rules` passes `include`
and `exclude` as Python lists, Python lists are unhashable, and
`functools.lru_cache` hashes the argument tuple before calling the body,
so EVERY call of the cached `matches_rule` raises
`TypeError: unhashable type: list` instead of returning the result of
the uncached function. -/
theorem cached_matches_rule_always_raises :
    ∀ (title : List Char) (incl : List (List (List Char))) (excl : List (List Char)),
      matchesRuleCached title incl excl =
        Except.error "TypeError: unhashable type: \x27list\x27" := by
  intro title incl excl
  rfl

/-- C2 counterexample: a present non-text Include value does not degrade
to the empty constraint; `pd.isna` is false on it, so `parse_include`
calls `.lower()` on it and raises `AttributeError`, failing the row. -/
theorem parse_include_nonstring_raises :
    parse_include (Cell.num 5) =
      Except.error "AttributeError: non-text value has no attribute lower" := rfl

/-- C2 amended: a missing Include degrades to the empty include list and
a missing or non-text Exclude degrades to the empty exclude list, but a
present non-text Include raises `AttributeError` instead of degrading. -/
theorem parse_degrades_except_nonstring_include :
    parse_include Cell.na = Except.ok [] ∧
    clean_and_split Cell.na = [] ∧
    (∀ n : Int, clean_and_split (Cell.num n) = []) ∧
    (∀ n : Int, parse_include (Cell.num n) =
      Except.error "AttributeError: non-text value has no attribute lower") :=
  ⟨rfl, rfl, fun _ => rfl, fun _ => rfl⟩

/-- C3 counterexample: a rule whose Include field is present but empty
text parses to a single empty AND-group `[[]]`, and such a rule matches
no title at all, here a title containing no token of the (empty) exclude
set, contradicting the claimed vacuous truth for empty Include. -/
theorem empty_string_include_matches_nothing :
    parse_include (Cell.str "".toList) = Except.ok [[]] ∧
    matches_rule "shirt".toList [[]] [] = false :=
  ⟨rfl, rfl⟩

/-- C3 amended: for a rule whose Include field is absent (`NaN`, parsed
include list `[]`) every title containing no exclude token matches
vacuously; but an Include that is present and empty text parses to
`[[]]`, which matches no title. -/
theorem empty_include_vacuous_match :
    parse_include Cell.na = Except.ok [] ∧
    (∀ (title : List Char) (excl : List (List Char)),
      (∀ w ∈ excl, pyIn w title = false) → matches_rule title [] excl = true) ∧
    (∀ (title : List Char) (excl : List (List Char)),
      matches_rule title [[]] excl = false) := by
  refine ⟨rfl, ?_, ?_⟩
  · intro title excl h
    have hany : (excl.any fun word => pyIn word title) = false := by
      rw [← Bool.not_eq_true, List.any_eq_true]
      rintro ⟨w, hw, hin⟩
      rw [h w hw] at hin
      exact Bool.false_ne_true hin
    simp [matches_rule, hany]
  · intro title excl
    simp [matches_rule]

/-- C3 witness: a rule with absent Include and exclude set {wool} matches
the title "shirt", which contains no exclude token. -/
theorem empty_include_vacuous_match_witness :
    matches_rule "shirt".toList [] ["wool".toList] = true :=
  empty_include_vacuous_match.2.1 "shirt".toList ["wool".toList] (by decide)

/-- C4: Include "a and b" (with empty Exclude) parses to the two
singleton AND-groups [[a],[b]], and the resulting rule matches a
(lowercased) title exactly when the title contains "a" as a substring
and contains "b" as a substring, independent of position or order. -/
theorem include_and_is_conjunction :
    parse_include (Cell.str "a and b".toList) =
      Except.ok [["a".toList], ["b".toList]] ∧
    ∀ title : List Char,
      matches_rule (pyLower title) [["a".toList], ["b".toList]] [] =
        (pyIn "a".toList (pyLower title) && pyIn "b".toList (pyLower title)) :=
  ⟨rfl, fun title => matches_rule_two_singleton (pyLower title) "a".toList "b".toList⟩

/-- C5: Include "a, b" (with empty Exclude) parses to the single
AND-group [[a, b]], and the resulting rule matches a (lowercased) title
exactly when the title contains "a" or contains "b" as a substring:
comma-separated tokens inside one AND-group are OR-alternatives. -/
theorem include_comma_is_disjunction :
    parse_include (Cell.str "a, b".toList) =
      Except.ok [["a".toList, "b".toList]] ∧
    ∀ title : List Char,
      matches_rule (pyLower title) [["a".toList, "b".toList]] [] =
        (pyIn "a".toList (pyLower title) || pyIn "b".toList (pyLower title)) :=
  ⟨rfl, fun title => matches_rule_one_pair (pyLower title) "a".toList "b".toList⟩

/-- C6: exclusion has OR-semantics and overrides inclusion: Exclude
"y, z" parses to the flat token set {y, z}, Include "x" parses to [[x]],
and whenever any one exclude token occurs in the title as a substring
the rule does not match, whatever the include structure is. -/
theorem exclude_overrides_include :
    clean_and_split (Cell.str "y, z".toList) = ["y".toList, "z".toList] ∧
    parse_include (Cell.str "x".toList) = Except.ok [["x".toList]] ∧
    ∀ (title w : List Char) (incl : List (List (List Char))) (excl : List (List Char)),
      w ∈ excl → pyIn w title = true → matches_rule title incl excl = false := by
  refine ⟨rfl, rfl, fun title w incl excl hmem hin => ?_⟩
  have hany : (excl.any fun word => pyIn word title) = true :=
    List.any_eq_true.mpr ⟨w, hmem, hin⟩
  simp [matches_rule, hany]

/-- C6 witness: with Include "x" and Exclude "y, z", the title "xy"
contains both the include token "x" and the exclude token "y", and the
rule does not match. -/
theorem exclude_overrides_include_witness :
    matches_rule "xy".toList [["x".toList]] ["y".toList, "z".toList] = false :=
  exclude_overrides_include.2.2 "xy".toList "y".toList [["x".toList]]
    ["y".toList, "z".toList] (by decide) (by decide)

/-- C7 (code bug): on the specification's own concrete scenario one
product titled "Red Cotton T-Shirt" and one rule (Include
"cotton and shirt", Exclude "wool", label "Cotton Apparel")
`classify_products` as written raises `TypeError` from the lru cache
instead of producing "Cotton Apparel"; with the cache removed, each
product's value is exactly the labels of its matching rules in
rule-table order joined with ", " (so zero matches give the empty
string), in input row order. -/
theorem classify_products_crashes_but_collects_in_order :
    classify_products [Cell.str "Red Cotton T-Shirt".toList]
        [([["cotton".toList], ["shirt".toList]], ["wool".toList], "Cotton Apparel".toList)] =
      Except.error "TypeError: unhashable type: \x27list\x27" ∧
    ∀ (titles : List Cell) (rules : List ParsedRule),
      classify_products_pure titles rules =
        (titles.map lowerTitle).map fun t =>
          List.intercalate (", ".toList)
            ((rules.filter fun r => matches_rule t r.1 r.2.1).map fun r => r.2.2) := by
  refine ⟨rfl, fun titles rules => ?_⟩
  simp only [classify_products_pure, matched_labels_pure_eq]

/-- C8: classification is deterministic a pure function of the
(lowercased) title sequence and the ordered rule list: two products
tables whose lowercased TITLE columns agree classify identically against
the same ordered rules, so repeated runs on the same inputs give
identical results. -/
theorem classify_products_deterministic :
    ∀ (t1 t2 : List Cell) (rules : List ParsedRule),
      t1.map lowerTitle = t2.map lowerTitle →
      classify_products t1 rules = classify_products t2 rules := by
  intro t1 t2 rules h
  unfold classify_products
  rw [h]

/-- C8 witness: the cells "A" and "a" have the same lowercased title, so
the two one-row tables classify identically. -/
theorem classify_products_deterministic_witness :
    classify_products [Cell.str "A".toList] [] =
      classify_products [Cell.str "a".toList] [] :=
  classify_products_deterministic [Cell.str "A".toList] [Cell.str "a".toList] []
    (by decide)

/-- C9: a products table without a TITLE column, or a rules table
missing any of the Rule, Include, Exclude columns, stops the run with
the corresponding descriptive message, before any rule is parsed or any
product is classified, and no output rows are produced. -/
theorem missing_columns_rejected :
    ∀ (pCols rCols : List String) (titles : List Cell)
      (rows : List (Cell × Cell × List Char)),
      ("TITLE" ∉ pCols →
        run_app pCols rCols titles rows =
          Except.error "Product file must contain a \x27TITLE\x27 column.") ∧
      ("TITLE" ∈ pCols →
        ("Rule" ∉ rCols ∨ "Include" ∉ rCols ∨ "Exclude" ∉ rCols) →
        run_app pCols rCols titles rows =
          Except.error "Rules file must contain \x27Rule\x27, \x27Include\x27, and \x27Exclude\x27 columns.") := by
  intro pCols rCols titles rows
  constructor
  · intro h
    unfold run_app
    rw [if_pos h]
  · intro h1 h2
    unfold run_app
    rw [if_neg (fun hn => hn h1), if_pos h2]

/-- C9 witness: a products table whose only column is NAME is rejected
with the TITLE message. -/
theorem missing_columns_rejected_witness :
    run_app ["NAME"] ["Rule", "Include", "Exclude"] [] [] =
      Except.error "Product file must contain a \x27TITLE\x27 column." :=
  (missing_columns_rejected ["NAME"] ["Rule", "Include", "Exclude"] [] []).1 (by decide)

/-- C10: every token produced by `clean_and_split` is nonempty, has no
surrounding whitespace (stripping it is the identity) and is lowercase
(lowercasing it is the identity); in particular stray commas,
consecutive separators or surrounding whitespace never yield an empty
token. -/
theorem clean_and_split_tokens :
    ∀ (cell : Cell) (tok : List Char), tok ∈ clean_and_split cell →
      tok ≠ [] ∧ stripWS tok = tok ∧ pyLower tok = tok := by
  intro cell tok htok
  cases cell with
  | na => simp [clean_and_split] at htok
  | num n => simp [clean_and_split] at htok
  | str s =>
    simp only [clean_and_split, List.mem_filterMap] at htok
    obtain ⟨t, -, hsome⟩ := htok
    by_cases h : stripWS t = []
    · rw [if_pos h] at hsome
      exact absurd hsome (by simp)
    · rw [if_neg h] at hsome
      have htk : pyLower (stripWS t) = tok := Option.some.inj hsome
      subst htk
      refine ⟨?_, ?_, pyLower_idem _⟩
      · simp [pyLower, h]
      · rw [stripWS_pyLower, stripWS_idem]

/-- C10 witness: from the Include text " A ,, b " the token "a" is
produced, and it is nonempty, stripped and lowercase. -/
theorem clean_and_split_tokens_witness :
    "a".toList ≠ [] ∧ stripWS "a".toList = "a".toList ∧
      pyLower "a".toList = "a".toList :=
  clean_and_split_tokens (Cell.str " A ,, b ".toList) "a".toList (by decide)

end Classifier

